import Mathlib

/-!
Verification development for the TS_Draggable_ToDoList repository
(src/src/app.ts plus the project-store, model and validation modules it
references). Pure/stateful TypeScript code is shallowly embedded: classes
become structures, mutation becomes explicit state passing, DOM side
effects (alerts, renders, listener callbacks) become explicit event
traces, and JavaScript numbers are modelled as exact rationals (ℚ).
-/

namespace TodoApp

/-- Modelled from the spec: `projectModel.ts` is not under `src/`.
The spec's Project record: `status` is one of `Active`, `Finished`;
no other state is reachable. -/
inductive ProjectStatus where
  | Active
  | Finished
deriving DecidableEq

/-- Modelled from the spec: `projectModel.ts` is not under `src/`.
A Project carries an id (spec: unique opaque identifier, assigned at
creation; modelled as a Nat drawn from a monotone counter), a title,
a description, a numeric effort `manday`, and a status. -/
structure Project where
  id : Nat
  title : String
  description : String
  manday : ℚ
  status : ProjectStatus
deriving DecidableEq

/-- Modelled from the spec: `projectState.ts` is not under `src/`.
The ProjectStore owns the ordered project sequence and a set of
subscriber callbacks (registered, never unregistered). Listener
callbacks are opaque, so they are modelled by their count: listener
number `i` (for `i < listeners`) is the `i`-th registered callback,
and a notification delivery is the pair (listener index, snapshot).
`nextId` is the fresh-id counter backing "freshly generated unique id". -/
structure ProjectStore where
  projects : List Project
  nextId : Nat
  listeners : Nat
deriving DecidableEq

/-- Modelled from the spec: the change protocol. Every registered
listener, in registration order (index 0, 1, ...), receives exactly one
delivery of the full current project sequence as a value (a snapshot,
not a reference to internal storage: the model hands listeners an
immutable value). -/
def notifyListeners (st : ProjectStore) : List (Nat × List Project) :=
  (List.range st.listeners).map (fun i => (i, st.projects))

/-- Modelled from the spec: `addListener(callback)` registers one more
subscriber; there is no unregister operation. -/
def ProjectStore.addListener (st : ProjectStore) : ProjectStore :=
  ⟨st.projects, st.nextId, st.listeners + 1⟩

/-- Modelled from the spec: `addProject(title, description, manday)`
constructs a new Project with a freshly generated unique id and
`status = Active`, appends it to the end of the sequence, then invokes
the change protocol. Returns the new store state and the notification
deliveries made before the call returns. -/
def ProjectStore.addProject (st : ProjectStore) (title description : String)
    (manday : ℚ) : ProjectStore × List (Nat × List Project) :=
  let newProject : Project := ⟨st.nextId, title, description, manday, ProjectStatus.Active⟩
  let st' : ProjectStore := ⟨st.projects ++ [newProject], st.nextId + 1, st.listeners⟩
  (st', notifyListeners st')

/-- Modelled from the spec: `changeProjectState(id, newStatus)` looks up
the project by id; if found and `newStatus` differs from the current
status, updates `status` in place and invokes the change protocol; if no
project with that id exists the operation is a no-op (silently ignored). -/
def ProjectStore.changeProjectState (st : ProjectStore) (id : Nat)
    (newStatus : ProjectStatus) : ProjectStore × List (Nat × List Project) :=
  match st.projects.find? (fun p => p.id == id) with
  | none => (st, [])
  | some p =>
    if p.status = newStatus then (st, [])
    else
      let st' : ProjectStore :=
        ⟨st.projects.map (fun q =>
            if q.id == id then ⟨q.id, q.title, q.description, q.manday, newStatus⟩ else q),
          st.nextId, st.listeners⟩
      (st', notifyListeners st')

/-- A mutating store call: one of the two operations of the store that
may change state (`addProject` or `changeProjectState`). -/
inductive StoreOp where
  | add (title description : String) (manday : ℚ)
  | change (id : Nat) (newStatus : ProjectStatus)

/-- Dispatch one mutating store call. -/
def applyOp (st : ProjectStore) : StoreOp → ProjectStore × List (Nat × List Project)
  | StoreOp.add t d m => st.addProject t d m
  | StoreOp.change id s => st.changeProjectState id s

/-- Whether a mutating store call actually changes store state:
`addProject` always does; `changeProjectState` does exactly when the id
is found and the new status differs from the current one. -/
def opChanges (st : ProjectStore) : StoreOp → Bool
  | StoreOp.add _ _ _ => true
  | StoreOp.change id s =>
    match st.projects.find? (fun p => p.id == id) with
    | none => false
    | some p => decide (p.status ≠ s)

/-! ### JavaScript number semantics

The TypeScript code converts numbers to strings with `toString()` and
strings to numbers with unary `+`. These host-language semantics are
modelled for exact decimal values (the only values the app produces). -/

/-- Decimal digits of the fraction `num / den` (with `num < den`),
most significant first, stopping at the first exact digit string or
after `fuel` digits. Models the fractional digits JavaScript
`Number.prototype.toString` prints for a finitely representable value. -/
def fracDigitsAux : Nat → Nat → Nat → String
  | _, _, 0 => ""
  | num, den, fuel + 1 =>
    if num = 0 then ""
    else
      let n10 := num * 10
      Nat.repr (n10 / den) ++ fracDigitsAux (n10 % den) den fuel

/-- Models JavaScript default number-to-string conversion for an exact
rational value: optional minus sign, integer part in decimal, and, when
the fractional part is nonzero, a dot followed by the fraction digits
(no trailing zeros, since the expansion stops when the remainder is 0). -/
def numberToString (q : ℚ) : String :=
  let sign := if q < 0 then "-" else ""
  let n := q.num.natAbs
  let fs := fracDigitsAux (n % q.den) q.den 30
  if fs = "" then sign ++ Nat.repr (n / q.den)
  else sign ++ Nat.repr (n / q.den) ++ "." ++ fs

/-- The `manday` getter of `ProjectItem` (src/src/app.ts lines 38-44):
below 20 person-days it renders the raw value suffixed with the
person-days unit `"人日"`; from 20 on it renders the value divided by 20
suffixed with the person-months unit `"人月"`. -/
def ProjectItem.mandayText (project : Project) : String :=
  let man := project.manday
  if project.manday < 20 then numberToString man ++ "人日"
  else numberToString (man / 20) ++ "人月"

/-- The three text fields `renderContent` of `ProjectItem` writes into a
list item (src/src/app.ts lines 69-73): title, formatted effort,
description. -/
def ProjectItem.renderContent (project : Project) : String × String × String :=
  (project.title, ProjectItem.mandayText project, project.description)

/-! ### Validation and form input -/

/-- JavaScript-style trimming of a string, as a character list. -/
def trimmedChars (s : String) : List Char :=
  ((s.data.dropWhile Char.isWhitespace).reverse.dropWhile Char.isWhitespace).reverse

/-- Digits to the natural number they denote, most significant first. -/
def digitsToNat (cs : List Char) : Nat :=
  cs.foldl (fun acc c => acc * 10 + (c.toNat - 48)) 0

/-- Models JavaScript string-to-number coercion (unary `+`) on the
decimal numerals the form can hold: the value is trimmed; an empty
string is 0; otherwise an optional minus sign, integer digits, and an
optional dot with fraction digits, denoting
`±(intDigits·10^k + fracDigits) / 10^k` where `k` counts the fraction
digits. A string that is not such a numeral has no numeric value
(`none`, standing for NaN). -/
def jsStringToNumber (s : String) : Option ℚ :=
  let cs := trimmedChars s
  if cs = [] then some 0
  else
    let sign : Int := if cs.head? = some '-' then -1 else 1
    let body := if cs.head? = some '-' then cs.tail else cs
    let intPart := body.takeWhile Char.isDigit
    let rest := body.dropWhile Char.isDigit
    match rest with
    | [] => if body = [] then none else some (mkRat (sign * digitsToNat intPart) 1)
    | '.' :: frac =>
      if frac.all Char.isDigit && (!intPart.isEmpty || !frac.isEmpty) then
        some (mkRat (sign * (digitsToNat intPart * 10 ^ frac.length + digitsToNat frac))
          (10 ^ frac.length))
      else none
    | _ => none

/-- Modelled from the spec: `validate.ts` is not under `src/`. A field
description `\x7bvalue, required, minLength?, maxLength?, min?, max?\x7d`;
the form always supplies string values, and `min`/`max` constrain the
value's numeric conversion. -/
structure Validatable where
  value : String
  required : Bool
  minLength : Option Nat
  maxLength : Option Nat
  min : Option ℚ
  max : Option ℚ

/-- Modelled from the spec: the validation predicate. All configured
checks must pass: `required` demands a nonzero trimmed length;
`minLength`/`maxLength` bound the string length; `min`/`max` bound the
numeric value (a value with no numeric reading fails a configured
numeric bound). -/
def validate (v : Validatable) : Bool :=
  (!v.required || (trimmedChars v.value).length != 0) &&
  (match v.minLength with
   | none => true
   | some m => decide (m ≤ v.value.length)) &&
  (match v.maxLength with
   | none => true
   | some m => decide (v.value.length ≤ m)) &&
  (match v.min with
   | none => true
   | some m =>
     match jsStringToNumber v.value with
     | none => false
     | some q => decide (m ≤ q)) &&
  (match v.max with
   | none => true
   | some m =>
     match jsStringToNumber v.value with
     | none => false
     | some q => decide (q ≤ m))

/-! ### ProjectInput (src/src/app.ts lines 141-196) -/

/-- The three raw input-field values of the form. -/
structure FormState where
  titleValue : String
  descriptionValue : String
  mandayValue : String
deriving DecidableEq

/-- The Validatable record `gatherInputs` builds for the title field
(src/src/app.ts line 168). -/
def titleValidatable (s : String) : Validatable :=
  ⟨s, true, some 2, none, none, none⟩

/-- The Validatable record `gatherInputs` builds for the description
field (src/src/app.ts line 169). -/
def descriptionValidatable (s : String) : Validatable :=
  ⟨s, true, some 2, none, none, none⟩

/-- The Validatable record `gatherInputs` builds for the manday field
(src/src/app.ts line 170). -/
def mandayValidatable (s : String) : Validatable :=
  ⟨s, true, none, none, some 0, some 100⟩

/-- `ProjectInput.gatherInputs` (src/src/app.ts lines 164-176): reads
the three field values; if any of the three validation checks fails it
alerts and returns nothing (`none`), otherwise it returns the title,
the description, and the manday string coerced to a number (unary `+`;
after a passed validation the coercion always succeeds, `getD 0`
supplies the unreachable default). -/
def gatherInputs (f : FormState) : Option (String × String × ℚ) :=
  if !validate (titleValidatable f.titleValue)
      || !validate (descriptionValidatable f.descriptionValue)
      || !validate (mandayValidatable f.mandayValue) then
    none
  else
    some (f.titleValue, f.descriptionValue, (jsStringToNumber f.mandayValue).getD 0)

/-- `ProjectInput.clearInput` (src/src/app.ts lines 179-183): sets all
three input fields to the empty string. -/
def clearInput (_ : FormState) : FormState :=
  ⟨"", "", ""⟩

/-- The externally observable steps a form submission performs, in
order: the blocking alert of a failed validation, the clearing of the
input fields, the `addProject` store call, and each listener
notification the store delivers before `addProject` returns. -/
inductive SubmitEvent where
  | alert
  | clearInputs
  | addProjectCall (title description : String) (manday : ℚ)
  | notify (listener : Nat) (snapshot : List Project)
deriving DecidableEq

/-- Whether a submission step is an `addProject` store call. -/
def SubmitEvent.isAddProjectCall : SubmitEvent → Bool
  | SubmitEvent.addProjectCall _ _ _ => true
  | _ => false

/-- `ProjectInput.submitFunc` (src/src/app.ts lines 186-196) together
with the alert inside `gatherInputs`: on failed validation only the
alert happens; on success the inputs are cleared and then
`projectState.addProject(title, desc, man)` runs, which notifies the
store's listeners before returning. Returns the final form state, the
final store state, and the ordered event trace. -/
def submitFunc (f : FormState) (st : ProjectStore) :
    FormState × ProjectStore × List SubmitEvent :=
  match gatherInputs f with
  | none => (f, st, [SubmitEvent.alert])
  | some (title, desc, man) =>
    let f' := clearInput f
    let r := st.addProject title desc man
    (f', r.1, SubmitEvent.clearInputs :: SubmitEvent.addProjectCall title desc man
      :: r.2.map (fun n => SubmitEvent.notify n.1 n.2))

/-! ### ProjectList (src/src/app.ts lines 77-138) -/

/-- The two list-presenter buckets, the `'active' | 'finished'`
constructor argument of `ProjectList`. -/
inductive ListType where
  | active
  | finished
deriving DecidableEq

/-- The status a bucket displays: `Active` for the "active" presenter,
`Finished` for the "finished" presenter. -/
def bucketStatus : ListType → ProjectStatus
  | ListType.active => ProjectStatus.Active
  | ListType.finished => ProjectStatus.Finished

/-- The filter the listener registered in `ProjectList.configure`
applies to a received snapshot (src/src/app.ts lines 119-125): keep a
project when the bucket is "active" and its status is `Active`,
otherwise when its status is `Finished`. -/
def relevantProjects (type : ListType) (projects : List Project) : List Project :=
  projects.filter (fun prj =>
    if type = ListType.active then decide (prj.status = ProjectStatus.Active)
    else decide (prj.status = ProjectStatus.Finished))

/-- The presenter's cached view, the `assignedProjects` field of
`ProjectList`. -/
structure PresenterState where
  assignedProjects : List Project
deriving DecidableEq

/-- The body of the listener `ProjectList.configure` registers
(src/src/app.ts lines 119-128): replace the cached view with the
filtered snapshot (the old cache is discarded), then call
`renderProjects`, which re-renders every project of the new cache in
order. Returns the new presenter state and the rendered items. -/
def onProjectsChanged (type : ListType) (projects : List Project)
    (_ : PresenterState) : PresenterState × List (String × String × String) :=
  let relevant := relevantProjects type projects
  (⟨relevant⟩, relevant.map ProjectItem.renderContent)

/-- `ProjectList.dropHandler` (src/src/app.ts lines 101-104): read the
project id from the drag payload and call
`projectState.changeProjectState` with it and
`this.type === 'active' ? ProjectStatus.Active : ProjectStatus.Finished`.
Unlike `dragStartHandler`, `dragOverHandler` and `dragLeaveHandler`,
this method carries no `@autobind` decorator, so the value of
`this.type` depends on how the method is invoked: `thisType` is the
value of `this.type` at dispatch — `some t` under a receiver-bound
invocation, `none` for the `undefined` that a bare-method-reference
invocation reads off the DOM element (and `undefined === 'active'` is
false). Returns the list of store calls made (id, new status) and the
store's result. -/
def ProjectList.dropHandler (thisType : Option ListType) (payloadId : Nat)
    (st : ProjectStore) :
    List (Nat × ProjectStatus) × (ProjectStore × List (Nat × List Project)) :=
  let status := if thisType = some ListType.active then ProjectStatus.Active
    else ProjectStatus.Finished
  ([(payloadId, status)], st.changeProjectState payloadId status)

/-- The drop dispatch as actually wired by `ProjectList.configure`
(src/src/app.ts line 116): `addEventListener('drop', this.dropHandler)`
registers the undecorated method as a bare function, so at dispatch
`this` is the DOM section element and `this.type` is `undefined`
(`none`), whichever bucket the presenter was constructed for. -/
def dropDispatch (_ : ListType) (payloadId : Nat) (st : ProjectStore) :
    List (Nat × ProjectStatus) × (ProjectStore × List (Nat × List Project)) :=
  ProjectList.dropHandler none payloadId st

/-- The declared media types of a drag payload: `none` models a drag
event whose `dataTransfer` is null, `some types` the (ordered)
`dataTransfer.types` list. -/
def DragTypes : Type := Option (List String)

/-- The condition of `ProjectList.dragOverHandler` (src/src/app.ts
line 90): `event.dataTransfer && event.dataTransfer.types[0] ===
'text/plain'` — a non-null dataTransfer whose FIRST declared type is
`"text/plain"`. -/
def dragOverAccepts (dataTransferTypes : Option (List String)) : Bool :=
  match dataTransferTypes with
  | none => false
  | some types => decide (types.head? = some "text/plain")

/-- The effects of `ProjectList.dragOverHandler` (src/src/app.ts lines
88-94): when the condition holds, the default is prevented and the
droppable highlight class is added; otherwise nothing happens. -/
def dragOverHandler (dataTransferTypes : Option (List String)) : Bool × Bool :=
  if dragOverAccepts dataTransferTypes then (true, true) else (false, false)

/-! ### Claims -/

/-- Claim C1 as stated is false at a concrete input: the store
`⟨[], 0, 1⟩` has one registered listener (listener 0), yet the mutating
store call `changeProjectState 5 Finished` (an unknown id) returns with
an empty delivery list — listener 0 is not invoked at all, so this
sequence of N = 1 mutating calls produces 0 ≠ 1 notification rounds. -/
theorem claim1_per_call_rounds_cex :
    (ProjectStore.changeProjectState ⟨[], 0, 1⟩ 5 ProjectStatus.Finished).2 = []
      ∧ (⟨[], 0, 1⟩ : ProjectStore).listeners = 1 := by
  decide

/-- Claim C1, amended: for every mutating store call that actually
changes state (every addProject, and every changeProjectState whose id
is found with a differing status), before the call returns every
registered listener 0, 1, ..., listeners-1 is invoked exactly once, in
registration order, with the full project sequence as it stands after
the call; a call that changes nothing (unknown id, or unchanged status)
delivers no notifications. Hence N state-changing calls produce exactly
N notification rounds per listener, each reflecting the state after
that call and before the next. -/
theorem claim1_change_protocol (st : ProjectStore) (op : StoreOp) :
    (applyOp st op).2 =
      if opChanges st op then
        (List.range st.listeners).map (fun i => (i, (applyOp st op).1.projects))
      else [] := by
  cases op with
  | add t d m =>
    simp [applyOp, opChanges, ProjectStore.addProject, notifyListeners]
  | change id s =>
    simp only [applyOp, opChanges, ProjectStore.changeProjectState]
    rcases hfind : st.projects.find? (fun p => p.id == id) with _ | p
    · simp [hfind]
    · by_cases hs : p.status = s
      · simp [hfind, hs]
      · simp [hfind, hs, notifyListeners]

/-- Claim C2: every addProject call appends exactly one new Project at
the end of the sequence, with status Active, the freshly generated id
(distinct from the ids of all projects previously in the store, given
the store invariant that every stored id is below the id counter), and
title, description and manday verbatim from the arguments; all
pre-existing projects are unchanged, and the invariant is preserved. -/
theorem claim2_addProject_appends (st : ProjectStore) (title description : String)
    (manday : ℚ) (hids : ∀ p ∈ st.projects, p.id < st.nextId) :
    (st.addProject title description manday).1.projects
        = st.projects ++ [⟨st.nextId, title, description, manday, ProjectStatus.Active⟩]
      ∧ (∀ p ∈ st.projects, p.id ≠ st.nextId)
      ∧ (∀ p ∈ (st.addProject title description manday).1.projects,
          p.id < (st.addProject title description manday).1.nextId) := by
  refine ⟨rfl, fun p hp => Nat.ne_of_lt (hids p hp), ?_⟩
  intro p hp
  simp only [ProjectStore.addProject, List.mem_append, List.mem_singleton] at hp
  rcases hp with hp | hp
  · exact Nat.lt_succ_of_lt (hids p hp)
  · subst hp
    exact Nat.lt_succ_self _

/-- Witness for claim C2 at a concrete store holding one project with
id 0 and counter 1. -/
theorem claim2_addProject_appends_holds :
    (ProjectStore.addProject ⟨[⟨0, "x", "y", 1, ProjectStatus.Active⟩], 1, 1⟩
        "t" "d" 5).1.projects
        = [⟨0, "x", "y", 1, ProjectStatus.Active⟩]
            ++ [⟨1, "t", "d", 5, ProjectStatus.Active⟩]
      ∧ (∀ p ∈ [(⟨0, "x", "y", 1, ProjectStatus.Active⟩ : Project)], p.id ≠ 1)
      ∧ (∀ p ∈ (ProjectStore.addProject ⟨[⟨0, "x", "y", 1, ProjectStatus.Active⟩], 1, 1⟩
          "t" "d" 5).1.projects,
          p.id < (ProjectStore.addProject ⟨[⟨0, "x", "y", 1, ProjectStatus.Active⟩], 1, 1⟩
            "t" "d" 5).1.nextId) :=
  claim2_addProject_appends ⟨[⟨0, "x", "y", 1, ProjectStatus.Active⟩], 1, 1⟩ "t" "d" 5
    (by decide)

/-- Claim C3: changeProjectState with an id belonging to no project in
the store leaves the store (sequence, ids, statuses, order, counters)
unchanged, delivers no notification, and raises no error (the operation
is total). -/
theorem claim3_unknown_id_noop (st : ProjectStore) (id : Nat)
    (newStatus : ProjectStatus) (h : ∀ p ∈ st.projects, p.id ≠ id) :
    st.changeProjectState id newStatus = (st, []) := by
  unfold ProjectStore.changeProjectState
  have hf : st.projects.find? (fun p => p.id == id) = none := by
    rw [List.find?_eq_none]
    intro p hp
    simpa using h p hp
  rw [hf]

/-- Witness for claim C3: id 5 is foreign to a store holding one
project with id 0. -/
theorem claim3_unknown_id_noop_holds :
    ProjectStore.changeProjectState ⟨[⟨0, "x", "y", 1, ProjectStatus.Active⟩], 1, 1⟩ 5
        ProjectStatus.Finished
      = (⟨[⟨0, "x", "y", 1, ProjectStatus.Active⟩], 1, 1⟩, []) :=
  claim3_unknown_id_noop ⟨[⟨0, "x", "y", 1, ProjectStatus.Active⟩], 1, 1⟩ 5
    ProjectStatus.Finished (by decide)

/-- Claim C4 as stated is false at a concrete input: at manday = 5 the
code renders "5人日" (person-days in Japanese, no space), not the
claimed "5 person-days". -/
theorem claim4_person_days_cex :
    ProjectItem.mandayText ⟨0, "t", "d", 5, ProjectStatus.Active⟩ ≠ "5 person-days"
      ∧ ProjectItem.mandayText ⟨0, "t", "d", 5, ProjectStatus.Active⟩ = "5人日" := by
  decide

/-- Claim C4, amended: for every project, the effort display string is
the default numeric rendering of manday suffixed with "人日" (the
person-days unit) when manday < 20, and the default numeric rendering
of manday / 20 (exact division) suffixed with "人月" (the person-months
unit) otherwise; in particular manday = 5 renders "5人日", manday = 20
renders "1人月", and manday = 45 renders "2.25人月". -/
theorem claim4_manday_format :
    (∀ p : Project, p.manday < 20 →
        ProjectItem.mandayText p = numberToString p.manday ++ "人日")
      ∧ (∀ p : Project, ¬p.manday < 20 →
        ProjectItem.mandayText p = numberToString (p.manday / 20) ++ "人月")
      ∧ ProjectItem.mandayText ⟨0, "a", "b", 5, ProjectStatus.Active⟩ = "5人日"
      ∧ ProjectItem.mandayText ⟨0, "a", "b", 20, ProjectStatus.Active⟩ = "1人月"
      ∧ ProjectItem.mandayText ⟨0, "a", "b", 45, ProjectStatus.Active⟩ = "2.25人月" := by
  refine ⟨?_, ?_, by decide, ?_, ?_⟩
  · intro p h
    simp [ProjectItem.mandayText, h]
  · intro p h
    simp [ProjectItem.mandayText, h]
  · have h : ((20 : ℚ)) / 20 = Rat.mk' 1 1 := by
      rw [Rat.mk'_eq_divInt, Rat.divInt_eq_div]
      norm_num
    unfold ProjectItem.mandayText
    rw [if_neg (by norm_num : ¬((20 : ℚ) < 20))]
    show numberToString ((20 : ℚ) / 20) ++ "人月" = "1人月"
    rw [h]
    decide
  · have h : ((45 : ℚ)) / 20 = Rat.mk' 9 4 := by
      rw [Rat.mk'_eq_divInt, Rat.divInt_eq_div]
      norm_num
    unfold ProjectItem.mandayText
    rw [if_neg (by norm_num : ¬((45 : ℚ) < 20))]
    show numberToString ((45 : ℚ) / 20) ++ "人月" = "2.25人月"
    rw [h]
    decide

/-- Witness for claim C4 at manday = 7 (below the 20 person-day
threshold). -/
theorem claim4_manday_format_holds :
    ProjectItem.mandayText ⟨0, "c", "d", 7, ProjectStatus.Active⟩
      = numberToString 7 ++ "人日" :=
  claim4_manday_format.1 ⟨0, "c", "d", 7, ProjectStatus.Active⟩ (by decide)

/-- Helper: the listener notifications delivered inside a submission
are never addProject store calls. -/
theorem filter_isAddProjectCall_map_notify (l : List (Nat × List Project)) :
    (l.map (fun n => SubmitEvent.notify n.1 n.2)).filter SubmitEvent.isAddProjectCall
      = [] := by
  induction l with
  | nil => rfl
  | cons a t ih => simpa [SubmitEvent.isAddProjectCall] using ih

/-- Claim C5: a form submission in which at least one of title,
description, or manday fails its validation check produces exactly one
blocking alert as its whole event trace (in particular addProject is
never called and no listener is notified), leaves the store sequence
unchanged, and leaves all three input fields uncleared. -/
theorem claim5_invalid_submit (f : FormState) (st : ProjectStore)
    (h : ¬(validate (titleValidatable f.titleValue) = true
        ∧ validate (descriptionValidatable f.descriptionValue) = true
        ∧ validate (mandayValidatable f.mandayValue) = true)) :
    submitFunc f st = (f, st, [SubmitEvent.alert]) := by
  have hcond : (!validate (titleValidatable f.titleValue)
      || !validate (descriptionValidatable f.descriptionValue)
      || !validate (mandayValidatable f.mandayValue)) = true := by
    cases hA : validate (titleValidatable f.titleValue) <;>
      cases hB : validate (descriptionValidatable f.descriptionValue) <;>
        cases hC : validate (mandayValidatable f.mandayValue) <;>
          simp_all
  have hg : gatherInputs f = none := by
    unfold gatherInputs
    rw [if_pos hcond]
  unfold submitFunc
  rw [hg]

/-- Witness for claim C5: an empty title fails the required/minLength
check, so the submission only alerts. -/
theorem claim5_invalid_submit_holds :
    submitFunc ⟨"", "Build it", "10"⟩ ⟨[], 0, 1⟩
      = (⟨"", "Build it", "10"⟩, ⟨[], 0, 1⟩, [SubmitEvent.alert]) :=
  claim5_invalid_submit ⟨"", "Build it", "10"⟩ ⟨[], 0, 1⟩ (by decide)

/-- Claim C6: a form submission in which title, description, and manday
all validate (title and description: required with minimum length 2;
manday: required with numeric value between 0 and 100 inclusive, as
fixed by the three Validatable records the code builds) makes exactly
one addProject call, with the entered title string, the entered
description string, and the numeric conversion of the entered manday
string. -/
theorem claim6_valid_submit (f : FormState) (st : ProjectStore)
    (h1 : validate (titleValidatable f.titleValue) = true)
    (h2 : validate (descriptionValidatable f.descriptionValue) = true)
    (h3 : validate (mandayValidatable f.mandayValue) = true) :
    ((submitFunc f st).2.2).filter SubmitEvent.isAddProjectCall
      = [SubmitEvent.addProjectCall f.titleValue f.descriptionValue
          ((jsStringToNumber f.mandayValue).getD 0)] := by
  have hg : gatherInputs f
      = some (f.titleValue, f.descriptionValue, (jsStringToNumber f.mandayValue).getD 0) := by
    unfold gatherInputs
    rw [if_neg]
    simp [h1, h2, h3]
  unfold submitFunc
  rw [hg]
  simp only [List.filter_cons]
  simp [SubmitEvent.isAddProjectCall, filter_isAddProjectCall_map_notify]

/-- Witness for claim C6 at a concrete valid submission. -/
theorem claim6_valid_submit_holds :
    ((submitFunc ⟨"Website", "Build it", "10"⟩ ⟨[], 0, 1⟩).2.2).filter
        SubmitEvent.isAddProjectCall
      = [SubmitEvent.addProjectCall "Website" "Build it"
          ((jsStringToNumber "10").getD 0)] :=
  claim6_valid_submit ⟨"Website", "Build it", "10"⟩ ⟨[], 0, 1⟩
    (by decide) (by decide) (by decide)

/-- Claim C7: on every snapshot delivered to a presenter's listener,
the cached view is replaced by exactly the snapshot's projects whose
status equals the presenter's bucket (Active for "active", Finished for
"finished"), in snapshot order (the cache is a sublist of the
snapshot), and a re-render of exactly the new cache is triggered; the
two presenters' views partition the snapshot (their concatenation is a
permutation of it). -/
theorem claim7_presenter_filter (type : ListType) (snapshot : List Project)
    (ps qs : PresenterState) :
    (onProjectsChanged type snapshot ps).1.assignedProjects
        = snapshot.filter (fun p => decide (p.status = bucketStatus type))
      ∧ (onProjectsChanged type snapshot ps).2
        = ((onProjectsChanged type snapshot ps).1.assignedProjects).map
            ProjectItem.renderContent
      ∧ ((onProjectsChanged type snapshot ps).1.assignedProjects).Sublist snapshot
      ∧ List.Perm
          ((onProjectsChanged ListType.active snapshot ps).1.assignedProjects
            ++ (onProjectsChanged ListType.finished snapshot qs).1.assignedProjects)
          snapshot := by
  have hrel : ∀ t : ListType, relevantProjects t snapshot
      = snapshot.filter (fun p => decide (p.status = bucketStatus t)) := by
    intro t
    cases t <;> simp [relevantProjects, bucketStatus]
  refine ⟨?_, rfl, ?_, ?_⟩
  · simpa [onProjectsChanged] using hrel type
  · simp only [onProjectsChanged]
    exact List.filter_sublist snapshot
  · simp only [onProjectsChanged, hrel]
    have hneg : snapshot.filter (fun p => decide (p.status = bucketStatus ListType.finished))
        = snapshot.filter
            (fun p => !(decide (p.status = bucketStatus ListType.active))) := by
      apply List.filter_congr
      intro p _
      cases hp : p.status <;> simp [bucketStatus, hp]
    rw [hneg]
    exact List.filter_append_perm _ snapshot

/-- Claim C8 is contradicted by the code: because `dropHandler` is
registered without binding (src/src/app.ts line 116) and carries no
`@autobind` decorator, every drop dispatch — on either presenter —
makes its single changeProjectState call with the payload id and status
Finished, never Active; in particular a drop on the "active" presenter
requests Finished, against the claim's "Active for the active
presenter". A receiver-bound invocation of the same handler body on the
"active" presenter would request Active, which is what the claim (and
the spec) describe as the intent. -/
theorem claim8_drop_always_finished :
    (∀ (type : ListType) (payloadId : Nat) (st : ProjectStore),
        (dropDispatch type payloadId st).1 = [(payloadId, ProjectStatus.Finished)]
          ∧ (dropDispatch type payloadId st).2
            = st.changeProjectState payloadId ProjectStatus.Finished)
      ∧ (dropDispatch ListType.active 0 ⟨[], 0, 0⟩).1 = [(0, ProjectStatus.Finished)]
      ∧ (ProjectList.dropHandler (some ListType.active) 0 ⟨[], 0, 0⟩).1
        = [(0, ProjectStatus.Active)] := by
  exact ⟨fun type payloadId st => ⟨rfl, rfl⟩, by decide, by decide⟩

/-- Claim C9 as stated is false at a concrete input: a drag payload
declaring the types ["text/uri-list", "text/plain"] does declare
'text/plain', yet the handler rejects it, because the code only checks
the FIRST declared type. -/
theorem claim9_dragover_cex :
    dragOverAccepts (some ["text/uri-list", "text/plain"]) = false
      ∧ "text/plain" ∈ ["text/uri-list", "text/plain"] := by
  decide

/-- Claim C9, amended: for every drag-over event, the presenter accepts
the drop target (prevents default and adds the droppable highlight) if
and only if the drag payload has a dataTransfer whose FIRST declared
media type is 'text/plain'; acceptance is gated only on that first
declared media type, with no inspection of the payload content. -/
theorem claim9_dragover_first_type (dataTransferTypes : Option (List String)) :
    (dragOverHandler dataTransferTypes).1 = dragOverAccepts dataTransferTypes
      ∧ (dragOverHandler dataTransferTypes).2 = dragOverAccepts dataTransferTypes
      ∧ (dragOverAccepts dataTransferTypes = true
        ↔ ∃ rest, dataTransferTypes = some ("text/plain" :: rest)) := by
  refine ⟨?_, ?_, ?_⟩
  · unfold dragOverHandler
    cases h : dragOverAccepts dataTransferTypes <;> simp [h]
  · unfold dragOverHandler
    cases h : dragOverAccepts dataTransferTypes <;> simp [h]
  · cases dataTransferTypes with
    | none => simp [dragOverAccepts]
    | some types =>
      cases types with
      | nil => simp [dragOverAccepts]
      | cons a rest => simp [dragOverAccepts, eq_comm]

/-- Claim C10: on every accepted form submission, the three input
fields are all cleared to the empty string, and the clearing step
precedes the addProject call and every listener notification in the
submission's event trace — listeners notified by that addProject
observe already-cleared inputs. -/
theorem claim10_clear_before_add (f : FormState) (st : ProjectStore)
    (title desc : String) (man : ℚ)
    (h : gatherInputs f = some (title, desc, man)) :
    (submitFunc f st).1 = (⟨"", "", ""⟩ : FormState)
      ∧ (submitFunc f st).2.2
        = SubmitEvent.clearInputs :: SubmitEvent.addProjectCall title desc man
            :: (st.addProject title desc man).2.map
              (fun n => SubmitEvent.notify n.1 n.2) := by
  unfold submitFunc
  rw [h]
  exact ⟨rfl, rfl⟩

/-- Witness for claim C10 at a concrete valid submission. -/
theorem claim10_clear_before_add_holds :
    (submitFunc ⟨"Website", "Build it", "10"⟩ ⟨[], 0, 1⟩).1 = (⟨"", "", ""⟩ : FormState)
      ∧ (submitFunc ⟨"Website", "Build it", "10"⟩ ⟨[], 0, 1⟩).2.2
        = SubmitEvent.clearInputs
            :: SubmitEvent.addProjectCall "Website" "Build it"
              ((jsStringToNumber "10").getD 0)
            :: (ProjectStore.addProject ⟨[], 0, 1⟩ "Website" "Build it"
                ((jsStringToNumber "10").getD 0)).2.map
              (fun n => SubmitEvent.notify n.1 n.2) :=
  claim10_clear_before_add ⟨"Website", "Build it", "10"⟩ ⟨[], 0, 1⟩
    "Website" "Build it" ((jsStringToNumber "10").getD 0) (by decide)

end TodoApp
